import Mathlib

/-!
Verification development for the journal-tui persistence and encryption layer.

The Go sources under `internal/storage/storage.go`, `internal/ui/attachment.go`
and the main `ui` update loop are shallowly embedded below: SQLite tables
become lists of row structures, byte blobs become `List Nat`, timestamps
become `Nat`, and the AES-GCM primitive from the Go standard library is
abstracted as a deterministic keystream/tag oracle (the construction around
it — nonce layout, length checks, error collapsing — is taken from the
source verbatim).
-/

namespace JournalTui

/-! ## Encryption envelope (`storage.go`: `encrypt` / `decrypt`)

The Go code derives a key with SHA-256 and calls `cipher.NewGCM` over
AES-256.  AES and SHA-256 live in the standard library, outside this
repository; they enter the model as an abstract deterministic primitive
producing a keystream byte and a tag byte from the password and nonce.
GCM's ciphertext is the plaintext XORed with the keystream, and the sealed
blob is `nonce ++ ciphertext ++ tag` with a 12-byte nonce and 16-byte tag,
exactly as `gcm.Seal(nonce, nonce, data, nil)` lays it out. -/

structure GCMPrim where
  ksByte : String → List Nat → Nat → Nat
  tagByte : String → List Nat → List Nat → Nat → Nat

def nonceSize : Nat := 12

def tagSize : Nat := 16

/-- Keystream of length `n` generated from password and nonce. -/
def keystream (prim : GCMPrim) (pw : String) (nonce : List Nat) (n : Nat) : List Nat :=
  (List.range n).map (prim.ksByte pw nonce)

/-- CTR-mode XOR layer of GCM: XOR the message with the keystream. -/
def ctrXor (prim : GCMPrim) (pw : String) (nonce : List Nat) (msg : List Nat) : List Nat :=
  List.zipWith (fun a b => a ^^^ b) msg (keystream prim pw nonce msg.length)

/-- The 16-byte authentication tag GCM computes over the ciphertext. -/
def tagBytes (prim : GCMPrim) (pw : String) (nonce : List Nat) (ct : List Nat) : List Nat :=
  (List.range tagSize).map (prim.tagByte pw nonce ct)

/-- Error taxonomy of the storage layer (§7 of the design). -/
inductive StorageErr where
  | invalidPassword
  | duplicateDate
  | noRows
  | ioFailure
  deriving DecidableEq, Repr

/-- `encrypt` from `storage.go`: seal `data` under `pw` with a fresh random
`nonce` (the randomness is passed in explicitly), producing
`nonce ++ ciphertext ++ tag`. -/
def encrypt (prim : GCMPrim) (data : List Nat) (pw : String) (nonce : List Nat) : List Nat :=
  nonce ++ ctrXor prim pw nonce data ++ tagBytes prim pw nonce (ctrXor prim pw nonce data)

/-- `decrypt` from `storage.go`: reject blobs shorter than the nonce, split
off the nonce, attempt authenticated decryption; every failure collapses to
the single `invalidPassword` error (`ErrInvalidPassword` in the source). -/
def decrypt (prim : GCMPrim) (data : List Nat) (pw : String) :
    Except StorageErr (List Nat) :=
  if data.length < nonceSize then .error .invalidPassword
  else if (data.drop nonceSize).length < tagSize then .error .invalidPassword
  else if (data.drop nonceSize).drop ((data.drop nonceSize).length - tagSize)
      = tagBytes prim pw (data.take nonceSize)
          ((data.drop nonceSize).take ((data.drop nonceSize).length - tagSize))
    then .ok (ctrXor prim pw (data.take nonceSize)
          ((data.drop nonceSize).take ((data.drop nonceSize).length - tagSize)))
    else .error .invalidPassword

/-! ## Data model (`internal/model`)

Timestamps (`time.Time`) are modelled as `Nat`; byte payloads as `List Nat`. -/

/-- `model.SaveRecord`: a previous version of an entry. -/
structure SaveRecord where
  content : String
  savedAt : Nat
  attachments : List String
  deriving DecidableEq, Repr

/-- `model.Attachment`: a file attached to an entry. -/
structure Attachment where
  id : String
  entryId : String
  filename : String
  mimeType : String
  size : Nat
  data : List Nat
  createdAt : Nat
  deriving DecidableEq, Repr

/-- `model.Entry`: a single journal entry. -/
structure Entry where
  id : String
  date : String
  content : String
  createdAt : Nat
  updatedAt : Nat
  history : List SaveRecord
  attachments : List Attachment
  deriving DecidableEq, Repr

/-- `model.Journal`: the collection of entries. -/
structure Journal where
  entries : List Entry
  deriving DecidableEq, Repr

/-- `Entry.AttachmentFilenames` from `internal/model`. -/
def Entry.attachmentFilenames (e : Entry) : List String :=
  e.attachments.map (·.filename)

/-! ## SQLite store state (`storage.go` schema)

The three tables of `initSchema` become three lists of row records; list
order models SQLite row (rowid) order. -/

/-- A row of the `entries` table. -/
structure EntryRow where
  id : String
  date : String
  content : String
  createdAt : Nat
  updatedAt : Nat
  deriving DecidableEq, Repr

/-- A row of the `history` table (`attachment_names` is the `|`-joined
filename list, empty string if none). -/
structure HistoryRow where
  entryId : String
  content : String
  savedAt : Nat
  attachmentNames : String
  deriving DecidableEq, Repr

/-- A row of the `attachments` table. -/
structure AttachmentRow where
  id : String
  entryId : String
  filename : String
  mimeType : String
  size : Nat
  data : List Nat
  createdAt : Nat
  deriving DecidableEq, Repr

/-- The whole store file. -/
structure DB where
  entries : List EntryRow
  history : List HistoryRow
  attachments : List AttachmentRow
  deriving DecidableEq, Repr

def emptyDB : DB := ⟨[], [], []⟩

/-! ## Load path (`LoadJournal` / `loadJournalFromDB`) -/

/-- The byte sequence of a TEXT value, for SQLite's memcmp-style TEXT
comparison (dates here are plain ASCII `YYYY-MM-DD` strings). -/
def strBytes (s : String) : List Nat := s.data.map Char.toNat

/-- The comparison behind `ORDER BY date DESC` on the `entries` table:
SQLite compares TEXT byte-wise (lexicographic on the byte lists). -/
def dateGe (a b : EntryRow) : Prop := strBytes b.date ≤ strBytes a.date

instance : DecidableRel dateGe :=
  fun a b => inferInstanceAs (Decidable (strBytes b.date ≤ strBytes a.date))

instance : IsTotal EntryRow dateGe := ⟨fun a b => le_total (strBytes b.date) (strBytes a.date)⟩

instance : IsTrans EntryRow dateGe := ⟨fun _ _ _ hab hbc => le_trans hbc hab⟩

/-- The comparison behind `ORDER BY saved_at DESC` on the `history` table. -/
def savedAtGe (a b : HistoryRow) : Prop := b.savedAt ≤ a.savedAt

instance : DecidableRel savedAtGe := fun a b => inferInstanceAs (Decidable (b.savedAt ≤ a.savedAt))

instance : IsTotal HistoryRow savedAtGe := ⟨fun a b => le_total b.savedAt a.savedAt⟩

instance : IsTrans HistoryRow savedAtGe := ⟨fun _ _ _ hab hbc => le_trans hbc hab⟩

/-- Rebuild one `SaveRecord` from a `history` row, as the load loop does:
`record.Attachments` is set only when `attachment_names` is non-empty. -/
def recordOfHistoryRow (h : HistoryRow) : SaveRecord :=
  { content := h.content
    savedAt := h.savedAt
    attachments := if h.attachmentNames = "" then [] else h.attachmentNames.splitOn "|" }

/-- Rebuild one `Attachment` from an `attachments` row, metadata only: the
`data` column is not selected, so the payload stays empty. -/
def attachmentMetaOfRow (entryId : String) (a : AttachmentRow) : Attachment :=
  { id := a.id
    entryId := entryId
    filename := a.filename
    mimeType := a.mimeType
    size := a.size
    data := []
    createdAt := a.createdAt }

/-- Rebuild one `Entry` from its row plus its history and attachment rows. -/
def entryOfRow (db : DB) (row : EntryRow) : Entry :=
  { id := row.id
    date := row.date
    content := row.content
    createdAt := row.createdAt
    updatedAt := row.updatedAt
    history := (List.insertionSort savedAtGe
        (db.history.filter (fun h => h.entryId = row.id))).map recordOfHistoryRow
    attachments := (db.attachments.filter (fun a => a.entryId = row.id)).map
        (attachmentMetaOfRow row.id) }

/-- `loadJournalFromDB`: every entry ordered by date descending, populated
with history (saved-at descending) and attachment metadata. -/
def loadJournalFromDB (db : DB) : Journal :=
  { entries := (List.insertionSort dateGe db.entries).map (entryOfRow db) }

/-- `LoadJournal`: `none` models a path at which no store file exists, in
which case an empty collection is returned rather than an error. -/
def loadJournal (file : Option DB) : Journal :=
  match file with
  | none => { entries := [] }
  | some db => loadJournalFromDB db

/-! ## Save path (`SaveJournal` / `saveJournalToDB`) -/

/-- Projection of an in-memory entry onto its `entries` table row. -/
def entryToRow (e : Entry) : EntryRow :=
  { id := e.id, date := e.date, content := e.content
    createdAt := e.createdAt, updatedAt := e.updatedAt }

/-- `INSERT OR REPLACE INTO entries`: SQLite deletes every row conflicting
on the `id` primary key or the `date` UNIQUE constraint, then inserts the
new row (at a fresh rowid, i.e. at the end). -/
def upsertEntryRow (rows : List EntryRow) (r : EntryRow) : List EntryRow :=
  rows.filter (fun x => x.id ≠ r.id ∧ x.date ≠ r.date) ++ [r]

/-- The history row written for a record of entry `entryId`
(`attachment_names` is the `|`-joined filename list). -/
def historyRowOfRecord (entryId : String) (rec : SaveRecord) : HistoryRow :=
  { entryId := entryId
    content := rec.content
    savedAt := rec.savedAt
    attachmentNames := String.intercalate "|" rec.attachments }

/-- Whether the `history` table already has a row matching
`(entry_id, saved_at)` — the `SELECT COUNT(*)` guard in `saveJournalToDB`. -/
def hasHistoryPair (hist : List HistoryRow) (entryId : String) (savedAt : Nat) : Bool :=
  hist.any (fun row => row.entryId = entryId ∧ row.savedAt = savedAt)

/-- One step of the history loop in `saveJournalToDB`: insert the record's
row only when no existing row matches `(entry_id, saved_at)`. -/
def insertHistoryIfAbsent (hist : List HistoryRow) (entryId : String)
    (rec : SaveRecord) : List HistoryRow :=
  if hasHistoryPair hist entryId rec.savedAt then hist
  else hist ++ [historyRowOfRecord entryId rec]

/-- The history loop of `saveJournalToDB` for one entry. -/
def saveEntryHistory (hist : List HistoryRow) (e : Entry) : List HistoryRow :=
  e.history.foldl (fun h r => insertHistoryIfAbsent h e.id r) hist

/-- `saveJournalToDB`: for each entry in order, upsert its row and run the
history loop.  Attachment rows are not written by this function. -/
def saveJournalToDB (db : DB) (j : Journal) : DB :=
  j.entries.foldl (fun acc e =>
    { acc with
      entries := upsertEntryRow acc.entries (entryToRow e)
      history := saveEntryHistory acc.history e }) db

/-- `AddHistoryRecord` (unencrypted path; the encrypted path runs the same
`INSERT` on the decrypted working copy): a plain unconditional insert. -/
def addHistoryRecord (db : DB) (entryId : String) (rec : SaveRecord) : DB :=
  { db with history := db.history ++ [historyRowOfRecord entryId rec] }

/-- `MigrateJournalEncrypted` at the collection level: load the full
collection from the source store, then save it into a freshly initialised
destination store (`SaveJournalEncrypted` always builds the transient
destination from scratch).  The encrypt/decrypt wrapping around the two
steps is the byte-level envelope proved to round-trip in C1. -/
def migrateJournalStore (src : DB) : DB :=
  saveJournalToDB emptyDB (loadJournalFromDB src)

/-! ## Attachment operations (`storage.go`) -/

/-- `GetAttachment`: `QueryRow ... WHERE id = ?` plus `Scan`; a missing id
surfaces as the `sql.ErrNoRows` failure, modelled as `noRows`. -/
def getAttachment (db : DB) (attachmentId : String) : Except StorageErr Attachment :=
  match db.attachments.find? (fun a => a.id = attachmentId) with
  | some a => .ok ⟨a.id, a.entryId, a.filename, a.mimeType, a.size, a.data, a.createdAt⟩
  | none => .error .noRows

/-- `ExportAttachment`: fetch the attachment and write its payload to the
destination; the returned bytes are what gets written. -/
def exportAttachment (db : DB) (attachmentId : String) : Except StorageErr (List Nat) :=
  (getAttachment db attachmentId).map (fun a => a.data)

/-- `DeleteAttachment`: a bare `DELETE FROM attachments WHERE id = ?`,
which succeeds even when no row matches. -/
def deleteAttachment (db : DB) (attachmentId : String) : Except StorageErr DB :=
  .ok { db with attachments := db.attachments.filter (fun a => a.id ≠ attachmentId) }

/-- `DeleteEntry`: three `DELETE` statements in one transaction (history,
attachments, then the entry row); none of them errors on a missing id. -/
def deleteEntry (db : DB) (entryId : String) : Except StorageErr DB :=
  .ok { entries := db.entries.filter (fun e => e.id ≠ entryId)
        history := db.history.filter (fun h => h.entryId ≠ entryId)
        attachments := db.attachments.filter (fun a => a.entryId ≠ entryId) }

/-- `AddAttachment`: a single row insert into the `attachments` table. -/
def addAttachmentRow (db : DB) (att : Attachment) : DB :=
  { db with attachments := db.attachments ++
      [⟨att.id, att.entryId, att.filename, att.mimeType, att.size, att.data, att.createdAt⟩] }

/-! ## Attachment-add workflow (`internal/ui/attachment.go`) -/

/-- `filepath.Ext`: the suffix beginning at the final dot, empty when the
name has no dot. -/
def fileExt (name : String) : String :=
  let parts := name.splitOn "."
  if parts.length ≤ 1 then "" else "." ++ parts.getLastD ""

/-- `DetectMimeType` from `storage.go`: a static extension→type table on
the lower-cased extension, defaulting to a generic binary type. -/
def detectMimeType (filename : String) : String :=
  let ext := (fileExt filename).toLower
  if ext = ".pdf" then "application/pdf"
  else if ext = ".png" then "image/png"
  else if ext = ".jpg" then "image/jpeg"
  else if ext = ".jpeg" then "image/jpeg"
  else if ext = ".gif" then "image/gif"
  else if ext = ".webp" then "image/webp"
  else if ext = ".svg" then "image/svg+xml"
  else if ext = ".mp3" then "audio/mpeg"
  else if ext = ".wav" then "audio/wav"
  else if ext = ".mp4" then "video/mp4"
  else if ext = ".webm" then "video/webm"
  else if ext = ".txt" then "text/plain"
  else if ext = ".md" then "text/markdown"
  else if ext = ".json" then "application/json"
  else if ext = ".xml" then "application/xml"
  else if ext = ".zip" then "application/zip"
  else if ext = ".doc" then "application/msword"
  else if ext = ".docx" then
    "application/vnd.openxmlformats-officedocument.wordprocessingml.document"
  else if ext = ".xls" then "application/vnd.ms-excel"
  else if ext = ".xlsx" then
    "application/vnd.openxmlformats-officedocument.spreadsheetml.sheet"
  else "application/octet-stream"

/-- Result of one run of `AttachmentModel.addAttachment`: the surfaced
error (if any), the in-memory entry, and the persisted store. -/
structure AttachResult where
  err : Option StorageErr
  entry : Entry
  db : DB
  deriving DecidableEq, Repr

/-- `AttachmentModel.addAttachment`: build the pre-attachment `SaveRecord`
(current content, "now", current filename list), append it to the
*in-memory* history, write the attachment row, and only then persist the
history record via `AddHistoryRecord`.  If the attachment write fails the
in-memory record is rolled back; the two flags model failure of the two
independent database writes. -/
def addAttachment (entry : Entry) (db : DB) (attId filename : String)
    (fileData : List Nat) (now : Nat) (attachWriteFails histWriteFails : Bool) :
    AttachResult :=
  let rec0 : SaveRecord :=
    ⟨entry.content, now, entry.attachmentFilenames⟩
  let e1 : Entry := { entry with history := entry.history ++ [rec0], updatedAt := now }
  let att : Attachment :=
    ⟨attId, entry.id, filename, detectMimeType filename, fileData.length, fileData, now⟩
  if attachWriteFails then
    { err := some .ioFailure
      entry := { e1 with history := e1.history.dropLast }
      db := db }
  else
    let db1 := addAttachmentRow db att
    let e2 : Entry := { e1 with attachments := e1.attachments ++ [{ att with data := [] }] }
    if histWriteFails then
      { err := some .ioFailure, entry := e2, db := db1 }
    else
      { err := none, entry := e2, db := addHistoryRecord db1 entry.id rec0 }

/-! ## Editor save workflow (`ui` App.Update, ViewEditor branch) -/

/-- The entry the editor stores in place of the old one: history is
extended by one record of the *previous* content, previous updated-at and
previous attachment filename list exactly when the content changed, and the
old attachment list is carried over. -/
def mergeEditedEntry (e ne : Entry) : Entry :=
  { ne with
    history :=
      if e.content ≠ ne.content then
        e.history ++ [⟨e.content, e.updatedAt, e.attachmentFilenames⟩]
      else e.history
    attachments := e.attachments }

/-- The editor's replace loop: substitute the first entry whose id matches
the edited entry. -/
def applyEdit (entries : List Entry) (ne : Entry) : List Entry :=
  match entries with
  | [] => []
  | e :: rest =>
    if e.id = ne.id then mergeEditedEntry e ne :: rest
    else e :: applyEdit rest ne

/-- `sortEntriesNewestFirst` (dates are unique, so sorting by `≥` on the
date string reproduces Go's strict `>` sort). -/
def entryGe (a b : Entry) : Prop := strBytes b.date ≤ strBytes a.date

instance : DecidableRel entryGe :=
  fun a b => inferInstanceAs (Decidable (strBytes b.date ≤ strBytes a.date))

def sortEntriesNewestFirst (j : Journal) : Journal :=
  { entries := List.insertionSort entryGe j.entries }

/-- The `EditingEntry != nil && e.ID == EditingEntry.ID` test: `e` is the
entry currently being edited. -/
def isEditingTarget (editing : Option Entry) (e : Entry) : Bool :=
  match editing with
  | some ed => e.id = ed.id
  | none => false

/-- The duplicate-date guard of the editor save flow: some entry has the
new date, and it is not the entry being edited. -/
def duplicateDateExists (j : Journal) (ne : Entry) (editing : Option Entry) : Bool :=
  j.entries.any (fun e => e.date = ne.date ∧ ¬ isEditingTarget editing e)

/-- The `ViewEditor`/`Saved` branch of `App.Update`: reject a duplicate
date (leaving the journal untouched), otherwise replace the edited entry or
append a new one and sort. -/
def editorSave (j : Journal) (ne : Entry) (editing : Option Entry) :
    Journal × Option StorageErr :=
  if duplicateDateExists j ne editing then (j, some .duplicateDate)
  else
    match editing with
    | some _ => (sortEntriesNewestFirst { entries := applyEdit j.entries ne }, none)
    | none => (sortEntriesNewestFirst { entries := j.entries ++ [ne] }, none)

/-! ## Journal registry (`storage.go`: config operations) -/

/-- `model.JournalDB`: one journal descriptor in the config manifest. -/
structure JournalDB where
  name : String
  path : String
  encrypted : Bool
  lastOpened : Nat
  deriving DecidableEq, Repr

/-- The fields of `model.Config` the registry operations touch. -/
structure Config where
  journals : List JournalDB
  activeJournal : String
  deriving DecidableEq, Repr

/-- The loop body of `FindJournal`: first descriptor whose path matches. -/
def findJournalIn (l : List JournalDB) (path : String) : Option JournalDB :=
  match l with
  | [] => none
  | j :: rest => if j.path = path then some j else findJournalIn rest path

/-- `FindJournal` returns (a pointer to) the first matching descriptor. -/
def findJournal (c : Config) (path : String) : Option JournalDB :=
  findJournalIn c.journals path

/-- `AddJournal`: unconditionally append a descriptor (zero last-opened). -/
def addJournal (c : Config) (name path : String) (encrypted : Bool) : Config :=
  { c with journals := c.journals ++ [⟨name, path, encrypted, 0⟩] }

/-- The loop body of `UpdateJournalLastOpened`: update the first matching
descriptor and stop (`break`). -/
def updateLastOpenedIn (l : List JournalDB) (path : String) (t : Nat) : List JournalDB :=
  match l with
  | [] => []
  | j :: rest =>
    if j.path = path then { j with lastOpened := t } :: rest
    else j :: updateLastOpenedIn rest path t

/-- `UpdateJournalLastOpened`. -/
def updateJournalLastOpened (c : Config) (path : String) (t : Nat) : Config :=
  { c with journals := updateLastOpenedIn c.journals path t }

/-- Invariant I2: the pair `(entry_id, saved_at)` is unique in the
`history` table. -/
def pairUnique (hist : List HistoryRow) : Prop :=
  hist.Pairwise (fun a b => a.entryId ≠ b.entryId ∨ a.savedAt ≠ b.savedAt)

instance (hist : List HistoryRow) : Decidable (pairUnique hist) :=
  inferInstanceAs
    (Decidable (hist.Pairwise fun a b : HistoryRow =>
      a.entryId ≠ b.entryId ∨ a.savedAt ≠ b.savedAt))

/-! ## Concrete inputs used to instantiate the theorems -/

/-- A concrete trivial AEAD primitive used to instantiate theorems. -/
def wPrim : GCMPrim :=
  { ksByte := fun pw _ i => pw.length + i
    tagByte := fun pw _ ct i => pw.length + ct.length + i }

/-- A registry with two descriptors sharing one path. -/
def wConfig : Config := ⟨[⟨"a", "p", false, 1⟩, ⟨"b", "p", true, 2⟩], "p"⟩

/-- An entry with no history and no attachments. -/
def wEntry : Entry := ⟨"e1", "2024-01-01", "today was fine", 0, 0, [], []⟩

/-- A store holding just `wEntry`'s row. -/
def wStore : DB := ⟨[entryToRow wEntry], [], []⟩

/-- A store with one entry owning one attachment. -/
def wAttachedStore : DB :=
  ⟨[⟨"e1", "2024-01-01", "hello", 0, 1⟩], [],
    [⟨"a1", "e1", "photo.png", "image/png", 3, [9, 9, 9], 7⟩]⟩

/-- A store whose history already holds the pair `("e1", 5)`. -/
def wHistStore : DB :=
  ⟨[⟨"e1", "2024-01-01", "c", 0, 5⟩], [⟨"e1", "c", 5, ""⟩], []⟩

/-- A store with two entries, history rows out of order, one attachment. -/
def wLoadStore : DB :=
  ⟨[⟨"e1", "2024-01-01", "a", 0, 1⟩, ⟨"e2", "2024-01-02", "b", 0, 2⟩],
    [⟨"e2", "old", 3, ""⟩, ⟨"e2", "older", 1, ""⟩],
    [⟨"a1", "e2", "f.png", "image/png", 2, [1, 2], 5⟩]⟩

/-- The previously stored version of an entry (content "A"). -/
def wOldEntry : Entry := ⟨"e1", "2024-01-01", "A", 0, 4, [], []⟩

/-- The same entry as re-saved by the editor (content "B"). -/
def wNewEntry : Entry := ⟨"e1", "2024-01-01", "B", 0, 9, [], []⟩

/-- A second entry under a different id carrying the same date. -/
def wClashEntry : Entry := ⟨"e9", "2024-01-01", "other", 0, 9, [], []⟩

/-- An in-memory journal carrying two history records, one of which matches
the pair already present in `wHistStore`. -/
def wJournal : Journal :=
  ⟨[⟨"e1", "2024-01-01", "c2", 0, 9, [⟨"c", 5, []⟩, ⟨"c1", 7, []⟩], []⟩]⟩

/-! # Theorems -/

lemma keystream_length (prim : GCMPrim) (pw : String) (nonce : List Nat) (n : Nat) :
    (keystream prim pw nonce n).length = n := by
  simp [keystream]

lemma zipWith_xor_cancel :
    ∀ (p ks : List Nat), p.length ≤ ks.length →
      List.zipWith (fun a b => a ^^^ b)
        (List.zipWith (fun a b => a ^^^ b) p ks) ks = p
  | [], _, _ => by simp
  | a :: p, [], h => by simp at h
  | a :: p, k :: ks, h => by
    simp only [List.zipWith]
    rw [Nat.xor_assoc, Nat.xor_self, Nat.xor_zero]
    have := zipWith_xor_cancel p ks (by simpa using Nat.le_of_succ_le_succ h)
    simp [this]

lemma ctrXor_length (prim : GCMPrim) (pw : String) (nonce : List Nat) (msg : List Nat) :
    (ctrXor prim pw nonce msg).length = msg.length := by
  simp [ctrXor, keystream_length]

lemma ctrXor_ctrXor (prim : GCMPrim) (pw : String) (nonce : List Nat) (msg : List Nat) :
    ctrXor prim pw nonce (ctrXor prim pw nonce msg) = msg := by
  conv_lhs => rw [ctrXor]
  rw [ctrXor_length]
  exact zipWith_xor_cancel msg _ (by rw [keystream_length])

/-- Evaluating `decrypt` on a sealed blob with an arbitrary second password:
the blob parses back into nonce, ciphertext and tag, and the outcome hinges
on whether the tag recomputed under the second password matches. -/
lemma decrypt_encrypt (prim : GCMPrim) (p : List Nat) (pw1 pw2 : String)
    (nonce : List Nat) (hn : nonce.length = nonceSize) :
    decrypt prim (encrypt prim p pw1 nonce) pw2 =
      if tagBytes prim pw1 nonce (ctrXor prim pw1 nonce p)
          = tagBytes prim pw2 nonce (ctrXor prim pw1 nonce p)
      then .ok (ctrXor prim pw2 nonce (ctrXor prim pw1 nonce p))
      else .error .invalidPassword := by
  unfold decrypt encrypt
  have hct : (ctrXor prim pw1 nonce p).length = p.length := ctrXor_length ..
  have htag : (tagBytes prim pw1 nonce (ctrXor prim pw1 nonce p)).length = tagSize := by
    simp [tagBytes]
  have hlen : (nonce ++ ctrXor prim pw1 nonce p ++
      tagBytes prim pw1 nonce (ctrXor prim pw1 nonce p)).length
      = nonceSize + (p.length + tagSize) := by
    simp [hn, hct, htag, Nat.add_assoc]
  rw [List.append_assoc]
  have htake : (nonce ++ (ctrXor prim pw1 nonce p ++
      tagBytes prim pw1 nonce (ctrXor prim pw1 nonce p))).take nonceSize = nonce := by
    rw [← hn, List.take_left]
  have hdrop : (nonce ++ (ctrXor prim pw1 nonce p ++
      tagBytes prim pw1 nonce (ctrXor prim pw1 nonce p))).drop nonceSize
      = ctrXor prim pw1 nonce p ++ tagBytes prim pw1 nonce (ctrXor prim pw1 nonce p) := by
    rw [← hn, List.drop_left]
  have h1 : ¬ (nonce ++ (ctrXor prim pw1 nonce p ++
      tagBytes prim pw1 nonce (ctrXor prim pw1 nonce p))).length < nonceSize := by
    rw [← List.append_assoc, hlen]; omega
  rw [if_neg h1, htake, hdrop]
  have hrl : (ctrXor prim pw1 nonce p ++
      tagBytes prim pw1 nonce (ctrXor prim pw1 nonce p)).length = p.length + tagSize := by
    simp [hct, htag]
  have h2 : ¬ (ctrXor prim pw1 nonce p ++
      tagBytes prim pw1 nonce (ctrXor prim pw1 nonce p)).length < tagSize := by
    rw [hrl]; omega
  rw [if_neg h2, hrl]
  have hsub : p.length + tagSize - tagSize = p.length := by omega
  rw [hsub]
  have htake2 : (ctrXor prim pw1 nonce p ++
      tagBytes prim pw1 nonce (ctrXor prim pw1 nonce p)).take p.length
      = ctrXor prim pw1 nonce p := by
    rw [← hct, List.take_left]
  have hdrop2 : (ctrXor prim pw1 nonce p ++
      tagBytes prim pw1 nonce (ctrXor prim pw1 nonce p)).drop p.length
      = tagBytes prim pw1 nonce (ctrXor prim pw1 nonce p) := by
    rw [← hct, List.drop_left]
  rw [htake2, hdrop2]

/-- **C1.** For every plaintext byte sequence, password, and 12-byte nonce,
decrypting the result of `encrypt` with the same password returns exactly
the plaintext: the encryption envelope's encrypt/decrypt pair is a
round-trip identity, for any deterministic AEAD primitive. -/
theorem encrypt_decrypt_roundtrip (prim : GCMPrim) (p : List Nat) (pw : String)
    (nonce : List Nat) (hn : nonce.length = nonceSize) :
    decrypt prim (encrypt prim p pw nonce) pw = .ok p := by
  rw [decrypt_encrypt prim p pw pw nonce hn, if_pos rfl, ctrXor_ctrXor]

/-- Witness for C1 at a concrete plaintext, password and nonce. -/
theorem encrypt_decrypt_roundtrip_witness :
    (List.replicate 12 0 : List Nat).length = nonceSize ∧
      decrypt wPrim (encrypt wPrim [1, 2, 3] "pw" (List.replicate 12 0)) "pw"
        = .ok [1, 2, 3] :=
  ⟨by decide, encrypt_decrypt_roundtrip wPrim [1, 2, 3] "pw" (List.replicate 12 0) (by decide)⟩

/-- **C4.** Whenever authenticated decryption cannot succeed, `decrypt` fails
with the single `invalidPassword` error and returns no plaintext bytes:
(1) a blob shorter than the nonce fails with `invalidPassword`;
(2) every error `decrypt` ever returns is `invalidPassword` — there is no
other failure channel and the error carries no partial plaintext;
(3) in particular, decrypting `encrypt P K1` under a password `K2` whose
recomputed authentication tag differs from the stored tag (which is what
"wrong password" means for the AEAD primitive) fails with `invalidPassword`. -/
theorem decrypt_failure_modes (prim : GCMPrim) :
    (∀ b pw, b.length < nonceSize → decrypt prim b pw = .error .invalidPassword) ∧
    (∀ b pw e, decrypt prim b pw = .error e → e = .invalidPassword) ∧
    (∀ p pw1 pw2 nonce, nonce.length = nonceSize →
      tagBytes prim pw1 nonce (ctrXor prim pw1 nonce p)
        ≠ tagBytes prim pw2 nonce (ctrXor prim pw1 nonce p) →
      decrypt prim (encrypt prim p pw1 nonce) pw2 = .error .invalidPassword) := by
  refine ⟨?_, ?_, ?_⟩
  · intro b pw h
    unfold decrypt
    rw [if_pos h]
  · intro b pw e h
    unfold decrypt at h
    split at h
    · injection h with h
      exact h.symm
    · split at h
      · injection h with h
        exact h.symm
      · split at h
        · cases h
        · injection h with h
          exact h.symm
  · intro p pw1 pw2 nonce hn hne
    rw [decrypt_encrypt prim p pw1 pw2 nonce hn, if_neg hne]

/-- Witness for C4: a concrete wrong-password decryption attempt whose
recomputed tag differs, and C4's conclusion at that input. -/
theorem decrypt_failure_modes_witness :
    (List.replicate 12 0 : List Nat).length = nonceSize ∧
    tagBytes wPrim "a" (List.replicate 12 0)
        (ctrXor wPrim "a" (List.replicate 12 0) [1, 2, 3])
      ≠ tagBytes wPrim "bb" (List.replicate 12 0)
        (ctrXor wPrim "a" (List.replicate 12 0) [1, 2, 3]) ∧
    decrypt wPrim (encrypt wPrim [1, 2, 3] "a" (List.replicate 12 0)) "bb"
      = .error .invalidPassword :=
  ⟨by decide, by decide,
    (decrypt_failure_modes wPrim).2.2 [1, 2, 3] "a" "bb" (List.replicate 12 0)
      (by decide) (by decide)⟩

lemma findJournalIn_first :
    ∀ (pre : List JournalDB) (d : JournalDB) (post : List JournalDB) (path : String),
      d.path = path → (∀ x ∈ pre, x.path ≠ path) →
      findJournalIn (pre ++ d :: post) path = some d
  | [], d, post, path, hd, _ => by simp [findJournalIn, hd]
  | x :: xs, d, post, path, hd, hpre => by
    have hx : x.path ≠ path := hpre x (List.mem_cons_self x xs)
    simp only [List.cons_append, findJournalIn]
    rw [if_neg hx]
    exact findJournalIn_first xs d post path hd
      (fun y hy => hpre y (List.mem_cons_of_mem x hy))

lemma findJournalIn_none :
    ∀ (l : List JournalDB) (path : String),
      (∀ x ∈ l, x.path ≠ path) → findJournalIn l path = none
  | [], _, _ => rfl
  | x :: xs, path, h => by
    simp only [findJournalIn]
    rw [if_neg (h x (List.mem_cons_self x xs))]
    exact findJournalIn_none xs path (fun y hy => h y (List.mem_cons_of_mem x hy))

lemma updateLastOpenedIn_first :
    ∀ (pre : List JournalDB) (d : JournalDB) (post : List JournalDB) (path : String)
      (t : Nat), d.path = path → (∀ x ∈ pre, x.path ≠ path) →
      updateLastOpenedIn (pre ++ d :: post) path t
        = pre ++ { d with lastOpened := t } :: post
  | [], d, post, path, t, hd, _ => by simp [updateLastOpenedIn, hd]
  | x :: xs, d, post, path, t, hd, hpre => by
    simp only [List.cons_append, updateLastOpenedIn]
    rw [if_neg (hpre x (List.mem_cons_self x xs))]
    exact congrArg (List.cons x)
      (updateLastOpenedIn_first xs d post path t hd
        (fun y hy => hpre y (List.mem_cons_of_mem x hy)))

/-- **C10.** `FindJournal` returns the first descriptor in list order whose
path matches, and `none` when no descriptor matches; `AddJournal` appends
unconditionally (so two descriptors may share a path); and
`UpdateJournalLastOpened` updates only the earliest-added match. -/
theorem registry_first_match_semantics :
    (∀ (c : Config) (path : String) (pre : List JournalDB) (d : JournalDB)
        (post : List JournalDB),
      c.journals = pre ++ d :: post → d.path = path → (∀ x ∈ pre, x.path ≠ path) →
      findJournal c path = some d) ∧
    (∀ (c : Config) (path : String), (∀ x ∈ c.journals, x.path ≠ path) →
      findJournal c path = none) ∧
    (∀ (c : Config) (name path : String) (encrypted : Bool),
      (addJournal c name path encrypted).journals
        = c.journals ++ [⟨name, path, encrypted, 0⟩]) ∧
    (∀ (c : Config) (path : String) (t : Nat) (pre : List JournalDB) (d : JournalDB)
        (post : List JournalDB),
      c.journals = pre ++ d :: post → d.path = path → (∀ x ∈ pre, x.path ≠ path) →
      (updateJournalLastOpened c path t).journals
        = pre ++ { d with lastOpened := t } :: post) := by
  refine ⟨?_, ?_, ?_, ?_⟩
  · intro c path pre d post hc hd hpre
    unfold findJournal
    rw [hc]
    exact findJournalIn_first pre d post path hd hpre
  · intro c path h
    exact findJournalIn_none c.journals path h
  · intro c name path e
    rfl
  · intro c path t pre d post hc hd hpre
    unfold updateJournalLastOpened
    rw [hc]
    exact updateLastOpenedIn_first pre d post path t hd hpre

/-- Witness for C10 on a registry holding two descriptors with one path. -/
theorem registry_first_match_semantics_witness :
    wConfig.journals
      = [] ++ (⟨"a", "p", false, 1⟩ : JournalDB) :: [⟨"b", "p", true, 2⟩] ∧
    findJournal wConfig "p" = some ⟨"a", "p", false, 1⟩ ∧
    findJournal wConfig "q" = none ∧
    (addJournal wConfig "c" "p" true).journals = wConfig.journals ++ [⟨"c", "p", true, 0⟩] ∧
    (updateJournalLastOpened wConfig "p" 9).journals
      = [] ++ (⟨"a", "p", false, 9⟩ : JournalDB) :: [⟨"b", "p", true, 2⟩] :=
  ⟨rfl,
    registry_first_match_semantics.1 wConfig "p" [] ⟨"a", "p", false, 1⟩
      [⟨"b", "p", true, 2⟩] rfl rfl (by simp),
    registry_first_match_semantics.2.1 wConfig "q" (by decide),
    registry_first_match_semantics.2.2.1 wConfig "c" "p" true,
    registry_first_match_semantics.2.2.2 wConfig "p" 9 [] ⟨"a", "p", false, 1⟩
      [⟨"b", "p", true, 2⟩] rfl rfl (by simp)⟩

/-- **C9 counterexample.** Deleting an attachment or an entry whose id does
not exist in the store reports success (`ok`), not a NotFound failure: the
bare SQL `DELETE` succeeds with zero rows affected. -/
theorem delete_missing_id_reports_success :
    deleteAttachment emptyDB "missing" = .ok emptyDB ∧
    deleteEntry emptyDB "missing" = .ok emptyDB :=
  ⟨rfl, rfl⟩

/-- **C9 amended.** For an id absent from the store, the fetch and export
operations fail with the no-rows error, while attachment delete and entry
delete report success and leave the store unchanged. -/
theorem missing_id_semantics (db : DB) (attId entryId : String)
    (hAtt : ∀ a ∈ db.attachments, a.id ≠ attId)
    (hEnt : ∀ e ∈ db.entries, e.id ≠ entryId)
    (hHist : ∀ h ∈ db.history, h.entryId ≠ entryId)
    (hAtt2 : ∀ a ∈ db.attachments, a.entryId ≠ entryId) :
    getAttachment db attId = .error .noRows ∧
    exportAttachment db attId = .error .noRows ∧
    deleteAttachment db attId = .ok db ∧
    deleteEntry db entryId = .ok db := by
  obtain ⟨es, hs, as⟩ := db
  have hfind : as.find? (fun a => a.id = attId) = none := by
    rw [List.find?_eq_none]
    intro a ha
    simpa using hAtt a ha
  have hget : getAttachment ⟨es, hs, as⟩ attId = .error .noRows := by
    unfold getAttachment
    rw [hfind]
  have hf1 : as.filter (fun a => a.id ≠ attId) = as :=
    List.filter_eq_self.mpr (fun a ha => by simpa using hAtt a ha)
  have hf2 : es.filter (fun e => e.id ≠ entryId) = es :=
    List.filter_eq_self.mpr (fun e he => by simpa using hEnt e he)
  have hf3 : hs.filter (fun h => h.entryId ≠ entryId) = hs :=
    List.filter_eq_self.mpr (fun h hh => by simpa using hHist h hh)
  have hf4 : as.filter (fun a => a.entryId ≠ entryId) = as :=
    List.filter_eq_self.mpr (fun a ha => by simpa using hAtt2 a ha)
  refine ⟨hget, ?_, ?_, ?_⟩
  · unfold exportAttachment
    rw [hget]
    rfl
  · unfold deleteAttachment
    rw [hf1]
  · unfold deleteEntry
    rw [hf2, hf3, hf4]

/-- Witness for C9's amended theorem on a store and an id it lacks. -/
theorem missing_id_semantics_witness :
    ((∀ a ∈ wAttachedStore.attachments, a.id ≠ "zz") ∧
      (∀ e ∈ wAttachedStore.entries, e.id ≠ "zz") ∧
      (∀ h ∈ wAttachedStore.history, h.entryId ≠ "zz") ∧
      (∀ a ∈ wAttachedStore.attachments, a.entryId ≠ "zz")) ∧
    (getAttachment wAttachedStore "zz" = .error .noRows ∧
      exportAttachment wAttachedStore "zz" = .error .noRows ∧
      deleteAttachment wAttachedStore "zz" = .ok wAttachedStore ∧
      deleteEntry wAttachedStore "zz" = .ok wAttachedStore) :=
  ⟨⟨by decide, by decide, by decide, by decide⟩,
    missing_id_semantics wAttachedStore "zz" "zz"
      (by decide) (by decide) (by decide) (by decide)⟩

/-- **C5.** When the journal already holds an entry `x` with the same date
as the entry being saved and `x` is not the entry being edited, the editor
save flow rejects the save with the duplicate-date error and leaves the
journal — in particular the stored entry `x` — unchanged. -/
theorem duplicate_date_rejected (j : Journal) (ne : Entry) (editing : Option Entry)
    (x : Entry) (hx : x ∈ j.entries) (hdate : x.date = ne.date)
    (hx2 : isEditingTarget editing x = false) :
    editorSave j ne editing = (j, some .duplicateDate) := by
  have hdup : duplicateDateExists j ne editing = true := by
    unfold duplicateDateExists
    rw [List.any_eq_true]
    exact ⟨x, hx, by simp [hdate, hx2]⟩
  unfold editorSave
  rw [hdup]
  simp

/-- Witness for C5: saving a second entry under a fresh id with an
already-used date is rejected and the journal is untouched. -/
theorem duplicate_date_rejected_witness :
    wOldEntry ∈ ({ entries := [wOldEntry] } : Journal).entries ∧
    wOldEntry.date = wClashEntry.date ∧
    isEditingTarget none wOldEntry = false ∧
    editorSave { entries := [wOldEntry] } wClashEntry none
      = ({ entries := [wOldEntry] }, some .duplicateDate) :=
  ⟨by decide, by decide, rfl,
    duplicate_date_rejected { entries := [wOldEntry] } wClashEntry none wOldEntry
      (by decide) (by decide) rfl⟩

/-- **C7.** The entry the editor stores in place of an edited entry gains
exactly one history record — carrying the previous content, the previous
updated-at timestamp and the previous attachment filename list — when the
content changed, and keeps its history untouched when the content is
unchanged; the edit replaces the first id match in the entry list. -/
theorem edit_history_policy (e ne : Entry) (he : e.id = ne.id) :
    ((e.content ≠ ne.content →
        (mergeEditedEntry e ne).history
          = e.history ++ [⟨e.content, e.updatedAt, e.attachmentFilenames⟩]) ∧
      (e.content = ne.content → (mergeEditedEntry e ne).history = e.history)) ∧
    (∀ (pre post : List Entry), (∀ x ∈ pre, x.id ≠ ne.id) →
      applyEdit (pre ++ e :: post) ne = pre ++ mergeEditedEntry e ne :: post) := by
  refine ⟨⟨?_, ?_⟩, ?_⟩
  · intro h
    simp [mergeEditedEntry, h]
  · intro h
    simp [mergeEditedEntry, h]
  · intro pre
    induction pre with
    | nil =>
      intro post _
      simp [applyEdit, he]
    | cons x xs ih =>
      intro post hpre
      have hx : x.id ≠ ne.id := hpre x (List.mem_cons_self x xs)
      simp only [List.cons_append, applyEdit]
      rw [if_neg hx]
      exact congrArg (List.cons x)
        (ih post (fun y hy => hpre y (List.mem_cons_of_mem x hy)))

/-- Witness for C7: editing content "A" to "B" appends one record holding
"A" and the old timestamp; the replacement happens in place. -/
theorem edit_history_policy_witness :
    wOldEntry.id = wNewEntry.id ∧
    wOldEntry.content ≠ wNewEntry.content ∧
    (mergeEditedEntry wOldEntry wNewEntry).history
      = wOldEntry.history
        ++ [⟨wOldEntry.content, wOldEntry.updatedAt, wOldEntry.attachmentFilenames⟩] ∧
    applyEdit ([] ++ wOldEntry :: []) wNewEntry
      = [] ++ mergeEditedEntry wOldEntry wNewEntry :: [] :=
  ⟨rfl, by decide,
    (edit_history_policy wOldEntry wNewEntry rfl).1.1 (by decide),
    (edit_history_policy wOldEntry wNewEntry rfl).2 [] [] (by simp)⟩

/-- **C3 counterexample.** When the attachment row write succeeds but the
subsequent history write (`AddHistoryRecord`) fails, the attachment row is
persisted while the pre-attachment SaveRecord is not: the pair is not an
atomic unit. -/
theorem attach_not_atomic_counterexample :
    (addAttachment wEntry wStore "a1" "photo.png" [9, 9] 10 false true).err
      = some .ioFailure ∧
    (addAttachment wEntry wStore "a1" "photo.png" [9, 9] 10 false true).db.attachments
      ≠ [] ∧
    (addAttachment wEntry wStore "a1" "photo.png" [9, 9] 10 false true).db.history
      = [] := by
  refine ⟨rfl, ?_, rfl⟩
  decide

/-- **C3 amended.** If the attachment write fails, nothing is persisted and
the in-memory SaveRecord is rolled back; if both writes succeed, both the
attachment row and the history row persist; but if the attachment write
succeeds and the history write fails, the attachment row persists without
the SaveRecord and the error is surfaced. -/
theorem attach_rollback_semantics (entry : Entry) (db : DB) (attId filename : String)
    (fileData : List Nat) (now : Nat) :
    (∀ hw : Bool,
      (addAttachment entry db attId filename fileData now true hw).err
        = some .ioFailure ∧
      (addAttachment entry db attId filename fileData now true hw).db = db ∧
      (addAttachment entry db attId filename fileData now true hw).entry.history
        = entry.history) ∧
    ((addAttachment entry db attId filename fileData now false false).err = none ∧
      (addAttachment entry db attId filename fileData now false false).db.attachments
        = db.attachments ++ [⟨attId, entry.id, filename, detectMimeType filename,
            fileData.length, fileData, now⟩] ∧
      (addAttachment entry db attId filename fileData now false false).db.history
        = db.history ++ [historyRowOfRecord entry.id
            ⟨entry.content, now, entry.attachmentFilenames⟩]) ∧
    ((addAttachment entry db attId filename fileData now false true).err
        = some .ioFailure ∧
      (addAttachment entry db attId filename fileData now false true).db.attachments
        = db.attachments ++ [⟨attId, entry.id, filename, detectMimeType filename,
            fileData.length, fileData, now⟩] ∧
      (addAttachment entry db attId filename fileData now false true).db.history
        = db.history) := by
  refine ⟨?_, ⟨rfl, rfl, rfl⟩, ⟨rfl, rfl, rfl⟩⟩
  intro hw
  refine ⟨rfl, rfl, ?_⟩
  show (entry.history ++ [_]).dropLast = entry.history
  exact List.dropLast_concat ..

/-- Witness for C3's amended theorem at concrete inputs. -/
theorem attach_rollback_semantics_witness :
    (addAttachment wEntry wStore "a1" "photo.png" [9, 9] 10 true false).db = wStore ∧
    (addAttachment wEntry wStore "a1" "photo.png" [9, 9] 10 true false).entry.history
      = wEntry.history ∧
    (addAttachment wEntry wStore "a1" "photo.png" [9, 9] 10 false false).err = none :=
  ⟨((attach_rollback_semantics wEntry wStore "a1" "photo.png" [9, 9] 10).1 false).2.1,
    ((attach_rollback_semantics wEntry wStore "a1" "photo.png" [9, 9] 10).1 false).2.2,
    (attach_rollback_semantics wEntry wStore "a1" "photo.png" [9, 9] 10).2.1.1⟩

/-- **C2 (code bug).** Migrating a store that contains an attachment drops
it: `saveJournalToDB` writes entry rows and history rows but never
attachment rows, so the migrated store's Load-all result is not identical
to the source's — the source loads one attachment, the destination none. -/
theorem migrate_drops_attachments :
    (loadJournalFromDB wAttachedStore).entries.map (fun e => e.attachments.length)
      = [1] ∧
    (loadJournalFromDB (migrateJournalStore wAttachedStore)).entries.map
        (fun e => e.attachments.length) = [0] ∧
    loadJournalFromDB (migrateJournalStore wAttachedStore)
      ≠ loadJournalFromDB wAttachedStore := by
  refine ⟨?_, ?_, ?_⟩ <;> decide

lemma entryToRow_entryOfRow (db : DB) (r : EntryRow) :
    entryToRow (entryOfRow db r) = r := rfl

/-- **C8.** `Load-all` returns all entries (a permutation of the `entries`
table rows) ordered by date descending, each with its SaveRecords ordered
by save time descending and its attachments as metadata only (payload
absent); and a missing store file loads as an empty collection. -/
theorem load_all_shape (db : DB) :
    List.Pairwise (fun a b : Entry => strBytes b.date ≤ strBytes a.date)
      (loadJournalFromDB db).entries ∧
    (∀ e ∈ (loadJournalFromDB db).entries,
      List.Pairwise (fun a b : SaveRecord => b.savedAt ≤ a.savedAt) e.history) ∧
    (∀ e ∈ (loadJournalFromDB db).entries, ∀ a ∈ e.attachments, a.data = []) ∧
    List.Perm ((loadJournalFromDB db).entries.map entryToRow) db.entries ∧
    loadJournal none = { entries := [] } := by
  refine ⟨?_, ?_, ?_, ?_, rfl⟩
  · have hs : List.Pairwise dateGe (List.insertionSort dateGe db.entries) :=
      List.sorted_insertionSort dateGe db.entries
    exact List.Pairwise.map (entryOfRow db) (fun a b hab => hab) hs
  · intro e he
    rw [show (loadJournalFromDB db).entries
        = (List.insertionSort dateGe db.entries).map (entryOfRow db) from rfl,
      List.mem_map] at he
    obtain ⟨r, _, rfl⟩ := he
    have hs : List.Pairwise savedAtGe
        (List.insertionSort savedAtGe (db.history.filter (fun h => h.entryId = r.id))) :=
      List.sorted_insertionSort savedAtGe _
    exact List.Pairwise.map recordOfHistoryRow (fun a b hab => hab) hs
  · intro e he a ha
    rw [show (loadJournalFromDB db).entries
        = (List.insertionSort dateGe db.entries).map (entryOfRow db) from rfl,
      List.mem_map] at he
    obtain ⟨r, _, rfl⟩ := he
    rw [show (entryOfRow db r).attachments
        = (db.attachments.filter (fun a => a.entryId = r.id)).map
            (attachmentMetaOfRow r.id) from rfl,
      List.mem_map] at ha
    obtain ⟨row, _, rfl⟩ := ha
    rfl
  · have hmap : ((List.insertionSort dateGe db.entries).map (entryOfRow db)).map entryToRow
        = List.insertionSort dateGe db.entries := by
      rw [List.map_map]
      have hcongr : List.map (entryToRow ∘ entryOfRow db)
          (List.insertionSort dateGe db.entries)
          = List.map id (List.insertionSort dateGe db.entries) :=
        List.map_congr_left (fun r _ => rfl)
      rw [hcongr, List.map_id]
    rw [show (loadJournalFromDB db).entries
        = (List.insertionSort dateGe db.entries).map (entryOfRow db) from rfl, hmap]
    exact List.perm_insertionSort dateGe db.entries

/-- Witness for C8 on a concrete two-entry store with out-of-order history
rows and one attachment. -/
theorem load_all_shape_witness :
    List.Pairwise (fun a b : Entry => strBytes b.date ≤ strBytes a.date)
      (loadJournalFromDB wLoadStore).entries ∧
    (entryOfRow wLoadStore ⟨"e2", "2024-01-02", "b", 0, 2⟩
        ∈ (loadJournalFromDB wLoadStore).entries ∧
      List.Pairwise (fun a b : SaveRecord => b.savedAt ≤ a.savedAt)
        (entryOfRow wLoadStore ⟨"e2", "2024-01-02", "b", 0, 2⟩).history) ∧
    (attachmentMetaOfRow "e2" ⟨"a1", "e2", "f.png", "image/png", 2, [1, 2], 5⟩
        ∈ (entryOfRow wLoadStore ⟨"e2", "2024-01-02", "b", 0, 2⟩).attachments ∧
      (attachmentMetaOfRow "e2" ⟨"a1", "e2", "f.png", "image/png", 2, [1, 2], 5⟩).data
        = []) ∧
    List.Perm ((loadJournalFromDB wLoadStore).entries.map entryToRow)
      wLoadStore.entries ∧
    loadJournal none = { entries := [] } :=
  ⟨(load_all_shape wLoadStore).1,
    ⟨by decide,
      (load_all_shape wLoadStore).2.1
        (entryOfRow wLoadStore ⟨"e2", "2024-01-02", "b", 0, 2⟩) (by decide)⟩,
    ⟨by decide,
      (load_all_shape wLoadStore).2.2.1
        (entryOfRow wLoadStore ⟨"e2", "2024-01-02", "b", 0, 2⟩) (by decide)
        (attachmentMetaOfRow "e2" ⟨"a1", "e2", "f.png", "image/png", 2, [1, 2], 5⟩)
        (by decide)⟩,
    (load_all_shape wLoadStore).2.2.2.1,
    (load_all_shape wLoadStore).2.2.2.2⟩

/-- **C6 counterexample.** `AddHistoryRecord` inserts unconditionally: on a
store whose history already holds the pair `("e1", 5)`, appending a record
with the same pair changes the store and breaks the `(entry id, saved-at)`
uniqueness invariant — a retry is not idempotent. -/
theorem addHistoryRecord_not_guarded :
    pairUnique wHistStore.history ∧
    hasHistoryPair wHistStore.history "e1" 5 = true ∧
    addHistoryRecord wHistStore "e1" ⟨"c", 5, []⟩ ≠ wHistStore ∧
    ¬ pairUnique (addHistoryRecord wHistStore "e1" ⟨"c", 5, []⟩).history := by
  refine ⟨?_, rfl, ?_, ?_⟩ <;> decide

lemma hasHistoryPair_insert (hist : List HistoryRow) (eid' : String) (rec' : SaveRecord)
    (eid : String) (t : Nat) (h : hasHistoryPair hist eid t = true) :
    hasHistoryPair (insertHistoryIfAbsent hist eid' rec') eid t = true := by
  unfold insertHistoryIfAbsent
  split
  · exact h
  · unfold hasHistoryPair at h ⊢
    rw [List.any_append, h]
    rfl

lemma hasHistoryPair_insert_self (hist : List HistoryRow) (eid : String)
    (rec : SaveRecord) :
    hasHistoryPair (insertHistoryIfAbsent hist eid rec) eid rec.savedAt = true := by
  unfold insertHistoryIfAbsent
  by_cases h : hasHistoryPair hist eid rec.savedAt = true
  · rw [if_pos h]
    exact h
  · rw [if_neg h]
    unfold hasHistoryPair at h ⊢
    rw [List.any_append]
    simp [historyRowOfRecord]

lemma foldl_insert_pres :
    ∀ (recs : List SaveRecord) (hist : List HistoryRow) (eid' eid : String) (t : Nat),
      hasHistoryPair hist eid t = true →
      hasHistoryPair
        (recs.foldl (fun h r => insertHistoryIfAbsent h eid' r) hist) eid t = true
  | [], _, _, _, _, h => h
  | r :: rs, hist, eid', eid, t, h =>
    foldl_insert_pres rs _ eid' eid t (hasHistoryPair_insert hist eid' r eid t h)

lemma saveEntryHistory_pres (e : Entry) (hist : List HistoryRow) (eid : String) (t : Nat)
    (h : hasHistoryPair hist eid t = true) :
    hasHistoryPair (saveEntryHistory hist e) eid t = true :=
  foldl_insert_pres e.history hist e.id eid t h

lemma foldl_insert_establishes :
    ∀ (recs : List SaveRecord) (hist : List HistoryRow) (eid : String) (r : SaveRecord),
      r ∈ recs →
      hasHistoryPair
        (recs.foldl (fun h rc => insertHistoryIfAbsent h eid rc) hist) eid r.savedAt = true
  | r' :: rs, hist, eid, r, hmem => by
    rcases List.mem_cons.mp hmem with rfl | hmem'
    · exact foldl_insert_pres rs _ eid eid r.savedAt
        (hasHistoryPair_insert_self hist eid r)
    · exact foldl_insert_establishes rs _ eid r hmem'

lemma foldl_insert_id :
    ∀ (recs : List SaveRecord) (hist : List HistoryRow) (eid : String),
      (∀ r ∈ recs, hasHistoryPair hist eid r.savedAt = true) →
      recs.foldl (fun h rc => insertHistoryIfAbsent h eid rc) hist = hist
  | [], _, _, _ => rfl
  | r :: rs, hist, eid, h => by
    have h0 : insertHistoryIfAbsent hist eid r = hist := by
      unfold insertHistoryIfAbsent
      rw [if_pos (h r (List.mem_cons_self r rs))]
    simp only [List.foldl]
    rw [h0]
    exact foldl_insert_id rs hist eid (fun r' hr' => h r' (List.mem_cons_of_mem r hr'))

lemma foldl_save_pres :
    ∀ (es : List Entry) (hist : List HistoryRow) (eid : String) (t : Nat),
      hasHistoryPair hist eid t = true →
      hasHistoryPair (es.foldl saveEntryHistory hist) eid t = true
  | [], _, _, _, h => h
  | e :: es', hist, eid, t, h =>
    foldl_save_pres es' _ eid t (saveEntryHistory_pres e hist eid t h)

lemma foldl_save_establishes :
    ∀ (es : List Entry) (hist : List HistoryRow) (e : Entry), e ∈ es →
      ∀ r ∈ e.history,
        hasHistoryPair (es.foldl saveEntryHistory hist) e.id r.savedAt = true
  | e' :: es', hist, e, hmem, r, hr => by
    rcases List.mem_cons.mp hmem with rfl | hmem'
    · exact foldl_save_pres es' _ e.id r.savedAt
        (foldl_insert_establishes e.history hist e.id r hr)
    · exact foldl_save_establishes es' _ e hmem' r hr

lemma foldl_save_id :
    ∀ (es : List Entry) (hist : List HistoryRow),
      (∀ e ∈ es, ∀ r ∈ e.history, hasHistoryPair hist e.id r.savedAt = true) →
      es.foldl saveEntryHistory hist = hist
  | [], _, _ => rfl
  | e :: es', hist, h => by
    have h0 : saveEntryHistory hist e = hist :=
      foldl_insert_id e.history hist e.id (h e (List.mem_cons_self e es'))
    simp only [List.foldl]
    rw [h0]
    exact foldl_save_id es' hist (fun e' he' => h e' (List.mem_cons_of_mem e he'))

lemma saveJournalToDB_history (j : Journal) (db : DB) :
    (saveJournalToDB db j).history = j.entries.foldl saveEntryHistory db.history := by
  unfold saveJournalToDB
  generalize j.entries = es
  induction es generalizing db with
  | nil => rfl
  | cons e es ih =>
    simp only [List.foldl]
    exact ih { db with
      entries := upsertEntryRow db.entries (entryToRow e)
      history := saveEntryHistory db.history e }

lemma pairUnique_insert (hist : List HistoryRow) (eid : String) (rec : SaveRecord)
    (h : pairUnique hist) : pairUnique (insertHistoryIfAbsent hist eid rec) := by
  unfold insertHistoryIfAbsent
  by_cases hp : hasHistoryPair hist eid rec.savedAt = true
  · rw [if_pos hp]
    exact h
  · rw [if_neg hp]
    unfold pairUnique at h ⊢
    rw [List.pairwise_append]
    refine ⟨h, List.pairwise_singleton _ _, ?_⟩
    intro a ha b hb
    rw [List.mem_singleton] at hb
    subst hb
    by_cases h1 : a.entryId = eid
    · right
      intro h2
      exact hp (by
        unfold hasHistoryPair
        rw [List.any_eq_true]
        exact ⟨a, ha, by simp [h1, h2, historyRowOfRecord]⟩)
    · left
      simpa [historyRowOfRecord] using h1

lemma pairUnique_saveEntryHistory :
    ∀ (recs : List SaveRecord) (hist : List HistoryRow) (eid : String),
      pairUnique hist →
      pairUnique (recs.foldl (fun h rc => insertHistoryIfAbsent h eid rc) hist)
  | [], _, _, h => h
  | r :: rs, hist, eid, h =>
    pairUnique_saveEntryHistory rs _ eid (pairUnique_insert hist eid r h)

lemma pairUnique_foldl_save :
    ∀ (es : List Entry) (hist : List HistoryRow),
      pairUnique hist → pairUnique (es.foldl saveEntryHistory hist)
  | [], _, h => h
  | e :: es', hist, h =>
    pairUnique_foldl_save es' _ (pairUnique_saveEntryHistory e.history hist e.id h)

/-- **C6 amended.** The `(entry id, saved-at)` guard lives in the
journal-save path, not in `AddHistoryRecord`: `saveJournalToDB` inserts a
history row only when no existing row matches the pair, it preserves the
uniqueness invariant I2, and re-running the same save (a retry) leaves the
history table unchanged.  `AddHistoryRecord` itself inserts
unconditionally (see the counterexample). -/
theorem save_history_guarded (j : Journal) (db : DB) :
    (∀ (hist : List HistoryRow) (eid : String) (rec : SaveRecord),
      hasHistoryPair hist eid rec.savedAt = true →
      insertHistoryIfAbsent hist eid rec = hist) ∧
    (pairUnique db.history → pairUnique (saveJournalToDB db j).history) ∧
    (saveJournalToDB (saveJournalToDB db j) j).history
      = (saveJournalToDB db j).history := by
  refine ⟨?_, ?_, ?_⟩
  · intro hist eid rec h
    unfold insertHistoryIfAbsent
    rw [if_pos h]
  · intro h
    rw [saveJournalToDB_history]
    exact pairUnique_foldl_save j.entries db.history h
  · rw [saveJournalToDB_history j (saveJournalToDB db j)]
    apply foldl_save_id
    intro e he r hr
    rw [saveJournalToDB_history]
    exact foldl_save_establishes j.entries db.history e he r hr

/-- Witness for C6's amended theorem on a concrete store and journal. -/
theorem save_history_guarded_witness :
    hasHistoryPair wHistStore.history "e1" (5 : Nat) = true ∧
    insertHistoryIfAbsent wHistStore.history "e1" ⟨"c", 5, []⟩ = wHistStore.history ∧
    pairUnique wHistStore.history ∧
    pairUnique (saveJournalToDB wHistStore wJournal).history ∧
    (saveJournalToDB (saveJournalToDB wHistStore wJournal) wJournal).history
      = (saveJournalToDB wHistStore wJournal).history :=
  ⟨rfl,
    (save_history_guarded wJournal wHistStore).1 wHistStore.history "e1" ⟨"c", 5, []⟩ rfl,
    by decide,
    (save_history_guarded wJournal wHistStore).2.1 (by decide),
    (save_history_guarded wJournal wHistStore).2.2⟩

end JournalTui
